import Mathlib

/-
Verification of the Ticker repository's multi-feed windowing engine
(src/trading_api/trading_api.py, src/utils/utils.py) against its
natural-language specification.

Python floats are modelled as rationals (ℚ); the claims under study are
structural (guards, resets, ordering, de-duplication), not about IEEE
rounding.  Per-exchange dicts keyed over params.EXCHANGES are modelled as
total functions from exchange name (String); fallible paths return
Option or an explicit outcome type.
-/

/-- Pointwise update of a string-keyed map, modelling `d[k] = v` on a
Python dict. -/
def upd {α : Type} (f : String → α) (k : String) (v : α) : String → α :=
  fun x => if x = k then v else f x

/-- Embedding of Python `str.lower()` (ASCII-faithful). -/
def pyLower (s : String) : String :=
  String.mk (s.data.map Char.toLower)

/-- Embedding of Python `str.capitalize()`: first character uppercased,
the rest lowercased. -/
def pyCapitalize (s : String) : String :=
  match s.data with
  | [] => ""
  | c :: cs => String.mk (c.toUpper :: cs.map Char.toLower)

/-- Embedding of Python `max(list)` on a list of rationals; `none` on the
empty list (where Python raises ValueError). -/
def pymax : List ℚ → Option ℚ
  | [] => none
  | p :: ps =>
    match pymax ps with
    | none => some p
    | some m => some (max p m)

/-- Embedding of Python `min(list)` on a list of rationals; `none` on the
empty list (where Python raises ValueError). -/
def pymin : List ℚ → Option ℚ
  | [] => none
  | p :: ps =>
    match pymin ps with
    | none => some p
    | some m => some (min p m)

/-- One trade print, source class `ContractPrice` (side is the literal
lowercase string the code writes, price the contract price). -/
structure ContractPrice where
  side : String
  price : ℚ
  deriving DecidableEq, Repr

/-- The class-level attributes of the source class `TradingHistoryStorage`
(`trade_ids_dict`, `liquidation_ids_dict`): they live on the class object,
so they are shared by every instance and survive the per-window
re-instantiation of the storage. -/
structure TradingHistoryClassAttrs where
  trade_ids_dict : String → Option String
  liquidation_ids_dict : String → Option String

/-- The instance attributes of the source class `TradingHistoryStorage`:
per-exchange windowed accumulation state, including the open-interest
cursor `OIids_dict`, which the source deliberately keeps on the instance. -/
structure TradingHistoryStorage where
  contract_prices_dict : String → List ContractPrice
  buy_volume_dict : String → ℚ
  sell_volume_dict : String → ℚ
  buy_liquidation_qty_dict : String → ℚ
  sell_liquidation_qty_dict : String → ℚ
  OIids_dict : String → Option ℚ
  OIs_dict : String → List ℚ

/-- `TradingHistoryStorage.__init__`: fresh per-window state. -/
def TradingHistoryStorage.init : TradingHistoryStorage where
  contract_prices_dict := fun _ => []
  buy_volume_dict := fun _ => 0
  sell_volume_dict := fun _ => 0
  buy_liquidation_qty_dict := fun _ => 0
  sell_liquidation_qty_dict := fun _ => 0
  OIids_dict := fun _ => none
  OIs_dict := fun _ => []

/-- The scheduler-visible accumulation state: the class-level cursor cells
plus the current `TradingHistoryStorage` instance. -/
structure SchedState where
  classAttrs : TradingHistoryClassAttrs
  trading_history_storage : TradingHistoryStorage

/-- The window-close reset performed by `get_realtime_orderbook`
(`self.trading_history_storage = TradingHistoryStorage()`): the instance
is replaced by a fresh one; class attributes are untouched. -/
def reset_trading_history_storage (s : SchedState) : SchedState :=
  { s with trading_history_storage := TradingHistoryStorage.init }

/-- A concrete pre-reset state: the bybit trade cursor holds "t1", the
liquidation cursor holds "l1", and the open-interest cursor holds 5. -/
def preResetState : SchedState where
  classAttrs :=
    { trade_ids_dict := fun _ => some "t1"
      liquidation_ids_dict := fun _ => some "l1" }
  trading_history_storage :=
    { contract_prices_dict := fun _ => [⟨"buy", 100⟩]
      buy_volume_dict := fun _ => 1
      sell_volume_dict := fun _ => 0
      buy_liquidation_qty_dict := fun _ => 0
      sell_liquidation_qty_dict := fun _ => 0
      OIids_dict := fun _ => some 5
      OIs_dict := fun _ => [5] }

/-- One pass of the scheduler loop's error bookkeeping
(`get_realtime_orderbook`): a successful cycle sets `warning_count = 0`;
a failed cycle increments it and escalates (re-raises) exactly when the
incremented count exceeds 5.  Returns (new count, fatal escalation). -/
def cycle_step (warning_count : ℕ) (failed : Bool) : ℕ × Bool :=
  if failed then
    let w := warning_count + 1
    (w, decide (w > 5))
  else
    (0, false)

/-- Run `n` consecutive failed cycles starting from a freshly reset
counter, recording whether any of them escalated to fatal. -/
def run_failures : ℕ → ℕ × Bool
  | 0 => (0, false)
  | n + 1 =>
    let p := run_failures n
    let q := cycle_step p.1 true
    (q.1, p.2 || q.2)

/-- One item of a trade snapshot as read from the feed store: `tid` is the
value at the per-exchange id key (`params.TRADE_IDS[exchange]`), with the
`side`, `price` and `size` fields used by `inner_store_trade`. -/
structure TradeEvent where
  tid : String
  side : String
  price : ℚ
  size : ℚ
  deriving DecidableEq, Repr

/-- One item of a liquidation snapshot: `lid` is the value at
`params.LIQUIDATION_IDS[exchange]`, with the `side` and `qty` fields used
by `inner_store_liquidation`. -/
structure LiqEvent where
  lid : String
  side : String
  qty : ℚ
  deriving DecidableEq, Repr

/-- One item of an open-interest (instrument) snapshot: the code uses the
`open_interest` field both as the de-dup id and as the sample value. -/
structure OIEvent where
  open_interest : ℚ
  deriving DecidableEq, Repr

/-- `inner_store_trade` from `_store_trading_history`: on a non-empty
snapshot, if the latest item's id differs from the class-level trade
cursor, update the cursor and fold the item by side (`side.lower()`
dispatch; a side that is neither buy nor sell folds nothing). -/
def inner_store_trade (exchange : String) (trades : List TradeEvent)
    (cls : TradingHistoryClassAttrs) (storage : TradingHistoryStorage) :
    TradingHistoryClassAttrs × TradingHistoryStorage :=
  match trades.getLast? with
  | none => (cls, storage)
  | some latest_trade =>
    if some latest_trade.tid ≠ cls.trade_ids_dict exchange then
      let cls' : TradingHistoryClassAttrs :=
        { cls with trade_ids_dict := upd cls.trade_ids_dict exchange (some latest_trade.tid) }
      if pyLower latest_trade.side = "buy" then
        (cls', { storage with
                 contract_prices_dict := upd storage.contract_prices_dict exchange (storage.contract_prices_dict exchange ++ [⟨"buy", latest_trade.price⟩]),
                 buy_volume_dict := upd storage.buy_volume_dict exchange (storage.buy_volume_dict exchange + latest_trade.size) })
      else if pyLower latest_trade.side = "sell" then
        (cls', { storage with
                 contract_prices_dict := upd storage.contract_prices_dict exchange (storage.contract_prices_dict exchange ++ [⟨"sell", latest_trade.price⟩]),
                 sell_volume_dict := upd storage.sell_volume_dict exchange (storage.sell_volume_dict exchange + latest_trade.size) })
      else
        (cls', storage)
    else
      (cls, storage)

/-- `inner_store_liquidation` from `_store_trading_history`: same cursor
discipline against the class-level liquidation cursor, folding the qty by
side (two independent ifs in the source). -/
def inner_store_liquidation (exchange : String) (liquidations : List LiqEvent)
    (cls : TradingHistoryClassAttrs) (storage : TradingHistoryStorage) :
    TradingHistoryClassAttrs × TradingHistoryStorage :=
  match liquidations.getLast? with
  | none => (cls, storage)
  | some latest_liquidation =>
    if some latest_liquidation.lid ≠ cls.liquidation_ids_dict exchange then
      let cls' : TradingHistoryClassAttrs :=
        { cls with liquidation_ids_dict := upd cls.liquidation_ids_dict exchange (some latest_liquidation.lid) }
      let st1 :=
        if pyLower latest_liquidation.side = "buy" then
          { storage with buy_liquidation_qty_dict := upd storage.buy_liquidation_qty_dict exchange (storage.buy_liquidation_qty_dict exchange + latest_liquidation.qty) }
        else storage
      let st2 :=
        if pyLower latest_liquidation.side = "sell" then
          { st1 with sell_liquidation_qty_dict := upd st1.sell_liquidation_qty_dict exchange (st1.sell_liquidation_qty_dict exchange + latest_liquidation.qty) }
        else st1
      (cls', st2)
    else
      (cls, storage)

/-- `inner_store_OI` from `_store_trading_history`: cursor lives on the
storage instance (`OIids_dict`); on a new id, store it and append the
sample. -/
def inner_store_OI (exchange : String) (OIs : List OIEvent)
    (storage : TradingHistoryStorage) : TradingHistoryStorage :=
  match OIs.getLast? with
  | none => storage
  | some latest_OI =>
    if some latest_OI.open_interest ≠ storage.OIids_dict exchange then
      { storage with
        OIids_dict := upd storage.OIids_dict exchange (some latest_OI.open_interest),
        OIs_dict := upd storage.OIs_dict exchange (storage.OIs_dict exchange ++ [latest_OI.open_interest]) }
    else
      storage

/-- The `Ohlcv` record (source class `Ohlcv`). -/
structure Ohlcv where
  open_ : Option ℚ
  high : Option ℚ
  low : Option ℚ
  close : Option ℚ
  buy_volume : ℚ
  sell_volume : ℚ
  buy_price_avg : Option ℚ
  sell_price_avg : Option ℚ
  deriving DecidableEq, Repr

/-- `Ohlcv.__init__` on the `cps is not None` path (only reached with a
non-empty contract-price list, guarded in `_create_ohlcvs`): open/close
are first/last arrival price, high/low are max/min over all prices, and
each side average divides the same-side price sum by the side volume
unless that volume is zero (the ZeroDivisionError handler yields None). -/
def Ohlcv.ofTrades (cps : List ContractPrice) (buy_volume sell_volume : ℚ) : Ohlcv where
  open_ := (cps.map (·.price)).head?
  high := pymax (cps.map (·.price))
  low := pymin (cps.map (·.price))
  close := (cps.map (·.price)).getLast?
  buy_volume := buy_volume
  sell_volume := sell_volume
  buy_price_avg :=
    if buy_volume = 0 then none
    else some (((cps.filter (fun cp => cp.side = "buy")).map (·.price)).sum / buy_volume)
  sell_price_avg :=
    if sell_volume = 0 then none
    else some (((cps.filter (fun cp => cp.side = "sell")).map (·.price)).sum / sell_volume)

/-- `Ohlcv()` with all defaults (the zero-trade window case): price
fields and averages are None, volumes are 0.0. -/
def Ohlcv.empty : Ohlcv :=
  ⟨none, none, none, none, 0, 0, none, none⟩

/-- The per-exchange body of `ApiClient._create_ohlcvs`: build the window
Ohlcv from the accumulated storage, falling back to `Ohlcv()` when no
contract price was accumulated. -/
def create_ohlcv (storage : TradingHistoryStorage) (exchange : String) : Ohlcv :=
  let contract_prices := storage.contract_prices_dict exchange
  let buy_volume := storage.buy_volume_dict exchange
  let sell_volume := storage.sell_volume_dict exchange
  if contract_prices.length ≠ 0 then
    Ohlcv.ofTrades contract_prices buy_volume sell_volume
  else
    Ohlcv.empty

/-- Class-attribute cell holding a bybit trade cursor "t1". -/
def clsT1 : TradingHistoryClassAttrs :=
  ⟨fun _ => some "t1", fun _ => none⟩

/-- Fresh class-attribute cells (both cursors None, as at import time). -/
def clsInit : TradingHistoryClassAttrs :=
  ⟨fun _ => none, fun _ => none⟩

/-- State after the first trade of the C6 end-to-end example:
(buy, price 100, size 1), id "t1", from a fresh process state. -/
def c6S1 : TradingHistoryClassAttrs × TradingHistoryStorage :=
  inner_store_trade "bybit" [⟨"t1", "Buy", 100, 1⟩] clsInit TradingHistoryStorage.init

/-- State after the second trade: (sell, price 101, size 2), id "t2". -/
def c6S2 : TradingHistoryClassAttrs × TradingHistoryStorage :=
  inner_store_trade "bybit" [⟨"t2", "Sell", 101, 2⟩] c6S1.1 c6S1.2

/-- State after the third trade: (buy, price 102, size 3), id "t3". -/
def c6S3 : TradingHistoryClassAttrs × TradingHistoryStorage :=
  inner_store_trade "bybit" [⟨"t3", "Buy", 102, 3⟩] c6S2.1 c6S2.2

/-- A JSON-like scalar value inside a raw feed dict. -/
inductive JVal where
  | jstr (s : String)
  | jnum (q : ℚ)
  deriving DecidableEq, Repr

/-- A raw feed dict, as an association list preserving insertion order
(Python dicts preserve it). -/
abbrev RawDict := List (String × JVal)

/-- `d[k]` as an Option (Python raises KeyError on a missing key). -/
def dictGet (d : RawDict) (k : String) : Option JVal :=
  (d.find? (fun kv => decide (kv.1 = k))).map (·.2)

/-- `utils.extract_dict`: delete every key not in `wanted_keys`, keeping
the remaining entries in their original order. -/
def extract_dict (dict_ : RawDict) (wanted_keys : List String) : RawDict :=
  dict_.filter (fun kv => decide (kv.1 ∈ wanted_keys))

/-- The sort key `lambda x: x['price']` (total here; callers guarantee a
numeric price, where Python would otherwise raise). -/
def priceKey (d : RawDict) : ℚ :=
  match dictGet d "price" with
  | some (JVal.jnum q) => q
  | _ => 0

/-- One iteration of the `_parse_orderbook` loop: read and capitalize the
side, strip the dict down to size/price, and append to that side's list;
`none` models the KeyError raised when the side is missing, not a string,
or capitalizes to neither Buy nor Sell. -/
def parse_step (result : List RawDict × List RawDict) (dict_ : RawDict) :
    Option (List RawDict × List RawDict) :=
  match dictGet dict_ "side" with
  | some (JVal.jstr s) =>
    let side := pyCapitalize s
    let d2 := extract_dict dict_ ["size", "price"]
    if side = "Buy" then some (result.1 ++ [d2], result.2)
    else if side = "Sell" then some (result.1, result.2 ++ [d2])
    else none
  | _ => none

/-- The whole `for dict_ in deepcopy(orderbook)` loop of
`_parse_orderbook`. -/
def collect_sides (acc : List RawDict × List RawDict) :
    List RawDict → Option (List RawDict × List RawDict)
  | [] => some acc
  | d :: ds =>
    match parse_step acc d with
    | some acc2 => collect_sides acc2 ds
    | none => none

/-- Insertion step of the comparison sort used to model `list.sort`. -/
def insertAsc {α : Type} (le : α → α → Bool) (x : α) : List α → List α
  | [] => [x]
  | y :: ys => if le x y then x :: y :: ys else y :: insertAsc le x ys

/-- Comparison sort modelling `list.sort(key=...)` (and with the reversed
comparison, `reverse=True`); agrees with Python's stable sort on the
sortedness and multiset properties used here. -/
def sortWith {α : Type} (le : α → α → Bool) : List α → List α
  | [] => []
  | x :: xs => insertAsc le x (sortWith le xs)

/-- Ascending comparison on the price key (`Sell` sort order). -/
def ascByPrice (a b : RawDict) : Bool := decide (priceKey a ≤ priceKey b)

/-- Descending comparison on the price key (`Buy` sort order,
`reverse=True`). -/
def descByPrice (a b : RawDict) : Bool := decide (priceKey b ≤ priceKey a)

/-- `ApiClient._parse_orderbook`: split entries by capitalized side,
strip to size/price, sort Sell ascending and Buy descending by price. -/
def parse_orderbook (orderbook : List RawDict) :
    Option (List RawDict × List RawDict) :=
  match collect_sides ([], []) orderbook with
  | none => none
  | some r => some (sortWith descByPrice r.1, sortWith ascByPrice r.2)

/-- The `LiquidationQty` record (source class `LiquidationQty`). -/
structure LiquidationQty where
  buy_liq_qty : ℚ
  sell_liq_qty : ℚ
  deriving DecidableEq, Repr

/-- The `OIohlc` record (source class `OIohlc`). -/
structure OIohlc where
  oi_open : Option ℚ
  oi_high : Option ℚ
  oi_low : Option ℚ
  oi_close : Option ℚ
  deriving DecidableEq, Repr

/-- `OIohlc.__init__` on a non-None sample list. -/
def OIohlc.ofSamples (ois : List ℚ) : OIohlc :=
  ⟨ois.head?, pymax ois, pymin ois, ois.getLast?⟩

/-- `OIohlc()` with the default None samples. -/
def OIohlc.empty : OIohlc :=
  ⟨none, none, none, none⟩

/-- The persisted per-window record (source class `Ticker`); the
timestamp is abstracted to a natural number.  The orderbook field is the
(Buy levels, Sell levels) pair produced by `_parse_orderbook`. -/
structure Ticker where
  timestamp : ℕ
  open_ : Option ℚ
  high : Option ℚ
  low : Option ℚ
  close : Option ℚ
  buy_volume : ℚ
  sell_volume : ℚ
  buy_price_avg : Option ℚ
  sell_price_avg : Option ℚ
  buy_liq_qty : ℚ
  sell_liq_qty : ℚ
  oi_open : Option ℚ
  oi_high : Option ℚ
  oi_low : Option ℚ
  oi_close : Option ℚ
  orderbook : List RawDict × List RawDict
  deriving DecidableEq, Repr

/-- `Ticker.__init__`: field-by-field copy of the window summaries plus
the parsed order book, stored as given (no truncation). -/
def Ticker.make (timestamp : ℕ) (ohlcv : Ohlcv) (liquidation_qty : LiquidationQty)
    (oi_ohlc : OIohlc) (orderbook : List RawDict × List RawDict) : Ticker where
  timestamp := timestamp
  open_ := ohlcv.open_
  high := ohlcv.high
  low := ohlcv.low
  close := ohlcv.close
  buy_volume := ohlcv.buy_volume
  sell_volume := ohlcv.sell_volume
  buy_price_avg := ohlcv.buy_price_avg
  sell_price_avg := ohlcv.sell_price_avg
  buy_liq_qty := liquidation_qty.buy_liq_qty
  sell_liq_qty := liquidation_qty.sell_liq_qty
  oi_open := oi_ohlc.oi_open
  oi_high := oi_ohlc.oi_high
  oi_low := oi_ohlc.oi_low
  oi_close := oi_ohlc.oi_close
  orderbook := orderbook

/-- One recorded upload to the sink (`inner_upload_df_to_gcs`): the
exchange, the buffer flushed, and the day whose name the file carries. -/
structure SinkCall where
  exchange : String
  df : List Ticker
  day : ℕ
  deriving DecidableEq

/-- The buffer-related state of `ApiClient`: per-exchange dataframes,
the stored current day, and the log of sink uploads. -/
structure ApiBufferState where
  df_dict : String → List Ticker
  today : ℕ
  gcs : List SinkCall

/-- `ApiClient.save_ticker`: upload every exchange's buffer (named with
the stored day), then re-create all buffers empty. -/
def save_ticker (exchanges : List String) (s : ApiBufferState) : ApiBufferState where
  df_dict := fun _ => []
  today := s.today
  gcs := s.gcs ++ exchanges.map (fun e => ⟨e, s.df_dict e, s.today⟩)

/-- The append loop at the end of `_update_df`: for each exchange, append
that exchange's ticker record to its dataframe. -/
def append_tickers (exchanges : List String) (ticker_dict : String → Ticker)
    (df : String → List Ticker) : String → List Ticker :=
  exchanges.foldl (fun acc e => upd acc e (acc e ++ [ticker_dict e])) df

/-- `ApiClient._update_df`: if the tick's date is later than the stored
day, save and clear all buffers and advance the day; then append each
exchange's ticker. -/
def update_df (exchanges : List String) (now : ℕ) (ticker_dict : String → Ticker)
    (s : ApiBufferState) : ApiBufferState :=
  let s1 := if s.today < now then { save_ticker exchanges s with today := now } else s
  { s1 with df_dict := append_tickers exchanges ticker_dict s1.df_dict }

/-- A minimal concrete ticker timestamped 0 (empty window, empty book). -/
def tick0 : Ticker := Ticker.make 0 Ohlcv.empty ⟨0, 0⟩ OIohlc.empty ([], [])

/-- A minimal concrete ticker timestamped 1. -/
def tick1 : Ticker := Ticker.make 1 Ohlcv.empty ⟨0, 0⟩ OIohlc.empty ([], [])

/-- A buffer state on day 0 holding one day-0 ticker for bybit. -/
def bufS0 : ApiBufferState := ⟨fun _ => [tick0], 0, []⟩

/-- The capitalized side of a raw order-book entry, when well-formed. -/
def entrySide (d : RawDict) : Option String :=
  match dictGet d "side" with
  | some (JVal.jstr s) => some (pyCapitalize s)
  | _ => none

/-- The example raw book of the spec: bids at 100, 99, 101 and asks at
105, 104, the first entry carrying an extra field to be stripped. -/
def exRawBook : List RawDict :=
  [[("side", JVal.jstr "Buy"), ("price", JVal.jnum 100), ("size", JVal.jnum 1), ("id", JVal.jnum 11)],
   [("side", JVal.jstr "Buy"), ("price", JVal.jnum 99), ("size", JVal.jnum 2)],
   [("side", JVal.jstr "Buy"), ("price", JVal.jnum 101), ("size", JVal.jnum 3)],
   [("side", JVal.jstr "Sell"), ("price", JVal.jnum 105), ("size", JVal.jnum 1)],
   [("side", JVal.jstr "Sell"), ("price", JVal.jnum 104), ("size", JVal.jnum 2)]]

/-- Expected parsed bids: descending by price, only price/size kept. -/
def exBuys : List RawDict :=
  [[("price", JVal.jnum 101), ("size", JVal.jnum 3)],
   [("price", JVal.jnum 100), ("size", JVal.jnum 1)],
   [("price", JVal.jnum 99), ("size", JVal.jnum 2)]]

/-- Expected parsed asks: ascending by price, only price/size kept. -/
def exSells : List RawDict :=
  [[("price", JVal.jnum 104), ("size", JVal.jnum 2)],
   [("price", JVal.jnum 105), ("size", JVal.jnum 1)]]

/-- The parse of the example book, as stored downstream. -/
def exParsed : List RawDict × List RawDict := (parse_orderbook exRawBook).getD ([], [])

/-- A Ticker built from the example book's parse (window summaries empty). -/
def exTicker : Ticker := Ticker.make 0 Ohlcv.empty ⟨0, 0⟩ OIohlc.empty exParsed

/-- The per-exchange feed store as seen by `_store_trading_history`: each
field is the stream's snapshot, or `none` when the store object has no
such attribute (AttributeError on access). -/
structure ExchangeStore where
  trade : Option (List TradeEvent)
  trades : Option (List TradeEvent)
  liquidation : Option (List LiqEvent)
  instrument : Option (List OIEvent)

/-- Outcome of one iteration of the `_store_trading_history` loop body. -/
inductive BodyOutcome where
  | ok (cls : TradingHistoryClassAttrs) (storage : TradingHistoryStorage)
  | fatalExit
  | taskCrash

/-- One iteration of the `_store_trading_history` loop, faithful to its
two try/except blocks.  If all three stream attributes exist, the three
inner stores run and the loop continues.  Otherwise the AttributeError
handler reads the FTX-style `trades` attribute — which rebinds only
`trades`, leaving the local variables `liquidations` and `OIs` unbound,
so the second try raises UnboundLocalError, caught by its broad handler,
which calls save_ticker and sys.exit(1) (`fatalExit`); if `trades` is
also missing, the AttributeError inside the handler escapes the task
(`taskCrash`). -/
def store_body (exchange : String) (store : ExchangeStore)
    (cls : TradingHistoryClassAttrs) (storage : TradingHistoryStorage) : BodyOutcome :=
  match store.trade, store.liquidation, store.instrument with
  | some tr, some lq, some ois =>
    let r1 := inner_store_trade exchange tr cls storage
    let r2 := inner_store_liquidation exchange lq r1.1 r1.2
    let st3 := inner_store_OI exchange ois r2.2
    BodyOutcome.ok r2.1 st3
  | _, _, _ =>
    match store.trades with
    | none => BodyOutcome.taskCrash
    | some _ => BodyOutcome.fatalExit

/-- An FTX-style store: no `trade`, `liquidation` or `instrument`
attribute, but a non-empty `trades` snapshot. -/
def ftxStore : ExchangeStore := ⟨none, some [⟨"t1", "Buy", 100, 1⟩], none, none⟩

@[simp] theorem upd_same {α : Type} (f : String → α) (k : String) (v : α) :
    upd f k v k = v := by
  simp [upd]

@[simp] theorem upd_other {α : Type} (f : String → α) (k : String) (v : α)
    (x : String) (h : x ≠ k) : upd f k v x = f x := by
  simp [upd, h]

theorem pymax_mem_and_bound (l : List ℚ) (m : ℚ) (h : pymax l = some m) :
    m ∈ l ∧ ∀ x ∈ l, x ≤ m := by
  induction l generalizing m with
  | nil => simp [pymax] at h
  | cons p ps ih =>
    cases hps : pymax ps with
    | none =>
      cases ps with
      | nil =>
        simp [pymax] at h
        subst h
        simp
      | cons q qs =>
        rw [pymax] at hps
        split at hps <;> simp at hps
    | some m' =>
      rw [pymax, hps] at h
      simp at h
      subst h
      rcases ih m' hps with ⟨hmem, hbd⟩
      constructor
      · rcases le_total p m' with hle | hle
        · rw [max_eq_right hle]
          exact List.mem_cons_of_mem _ hmem
        · rw [max_eq_left hle]
          exact List.mem_cons_self _ _
      · intro x hx
        rcases List.mem_cons.mp hx with rfl | hx
        · exact le_max_left _ _
        · exact le_trans (hbd x hx) (le_max_right _ _)

theorem pymax_isSome (l : List ℚ) (h : l ≠ []) : ∃ m, pymax l = some m := by
  cases l with
  | nil => exact absurd rfl h
  | cons p ps =>
    rw [pymax]
    cases pymax ps <;> simp

theorem pymin_mem_and_bound (l : List ℚ) (m : ℚ) (h : pymin l = some m) :
    m ∈ l ∧ ∀ x ∈ l, m ≤ x := by
  induction l generalizing m with
  | nil => simp [pymin] at h
  | cons p ps ih =>
    cases hps : pymin ps with
    | none =>
      cases ps with
      | nil =>
        simp [pymin] at h
        subst h
        simp
      | cons q qs =>
        rw [pymin] at hps
        split at hps <;> simp at hps
    | some m' =>
      rw [pymin, hps] at h
      simp at h
      subst h
      rcases ih m' hps with ⟨hmem, hbd⟩
      constructor
      · rcases le_total p m' with hle | hle
        · rw [min_eq_left hle]
          exact List.mem_cons_self _ _
        · rw [min_eq_right hle]
          exact List.mem_cons_of_mem _ hmem
      · intro x hx
        rcases List.mem_cons.mp hx with rfl | hx
        · exact min_le_left _ _
        · exact le_trans (min_le_right _ _) (hbd x hx)

theorem pymin_isSome (l : List ℚ) (h : l ≠ []) : ∃ m, pymin l = some m := by
  cases l with
  | nil => exact absurd rfl h
  | cons p ps =>
    rw [pymin]
    cases pymin ps <;> simp

/-- C1 (counterexample): the open-interest de-dup cursor does NOT survive
the window reset.  At the concrete state `preResetState` the bybit OI
cursor holds 5 before the reset and None after it, refuting the claim
that all three cursors keep their pre-reset identifiers. -/
theorem c1_oi_cursor_reset_counterexample :
    preResetState.trading_history_storage.OIids_dict "bybit" = some 5 ∧
    (reset_trading_history_storage preResetState).trading_history_storage.OIids_dict "bybit" = none := by
  constructor <;> rfl

/-- C1 (amended): after the scheduler replaces the per-window storage with
a fresh `TradingHistoryStorage`, the class-level trade and liquidation
cursors still hold their pre-reset identifiers for every exchange, and the
windowed state (contract prices, volumes, liquidation quantities, OI
samples) is cleared — but the open-interest cursor, being an instance
attribute, is cleared to None along with it. -/
theorem c1_cursor_lifetimes (s : SchedState) (exchange : String) :
    (reset_trading_history_storage s).classAttrs.trade_ids_dict exchange
      = s.classAttrs.trade_ids_dict exchange ∧
    (reset_trading_history_storage s).classAttrs.liquidation_ids_dict exchange
      = s.classAttrs.liquidation_ids_dict exchange ∧
    (reset_trading_history_storage s).trading_history_storage.contract_prices_dict exchange = [] ∧
    (reset_trading_history_storage s).trading_history_storage.buy_volume_dict exchange = 0 ∧
    (reset_trading_history_storage s).trading_history_storage.sell_volume_dict exchange = 0 ∧
    (reset_trading_history_storage s).trading_history_storage.buy_liquidation_qty_dict exchange = 0 ∧
    (reset_trading_history_storage s).trading_history_storage.sell_liquidation_qty_dict exchange = 0 ∧
    (reset_trading_history_storage s).trading_history_storage.OIs_dict exchange = [] ∧
    (reset_trading_history_storage s).trading_history_storage.OIids_dict exchange = none :=
  ⟨rfl, rfl, rfl, rfl, rfl, rfl, rfl, rfl, rfl⟩

/-- C4: the consecutive-error counter is reset to 0 by every successful
cycle, incremented by every failed cycle, and a failed cycle escalates to
fatal exactly when the incremented counter exceeds 5; hence six
consecutive failures from a reset counter escalate while five do not. -/
theorem c4_error_counter_policy :
    (∀ w, cycle_step w false = (0, false)) ∧
    (∀ w, (cycle_step w true).1 = w + 1) ∧
    (∀ w, ((cycle_step w true).2 = true ↔ 5 < w + 1)) ∧
    run_failures 6 = (6, true) ∧
    run_failures 5 = (5, false) := by
  refine ⟨fun w => rfl, fun w => rfl, fun w => ?_, by decide, by decide⟩
  simp [cycle_step]

theorem inner_store_trade_eq_noop (exchange : String) (trades : List TradeEvent)
    (t : TradeEvent) (cls : TradingHistoryClassAttrs) (storage : TradingHistoryStorage)
    (hlast : trades.getLast? = some t)
    (heq : cls.trade_ids_dict exchange = some t.tid) :
    inner_store_trade exchange trades cls storage = (cls, storage) := by
  unfold inner_store_trade
  rw [hlast]
  exact if_neg (not_not_intro heq.symm)

theorem inner_store_trade_fst_cursor (exchange : String) (trades : List TradeEvent)
    (t : TradeEvent) (cls : TradingHistoryClassAttrs) (storage : TradingHistoryStorage)
    (hlast : trades.getLast? = some t)
    (hne : some t.tid ≠ cls.trade_ids_dict exchange) :
    (inner_store_trade exchange trades cls storage).1.trade_ids_dict exchange = some t.tid := by
  unfold inner_store_trade
  rw [hlast]
  dsimp only
  rw [if_pos hne]
  split_ifs <;> simp [upd]

/-- C3: de-dup is idempotent.  If the latest trade's id equals the stored
cursor, processing is a complete no-op (volumes unchanged, nothing
appended); for a buy/sell event the accumulator gains a ContractPrice iff
the id differs from the cursor; and processing any snapshot twice in
succession equals processing it once. -/
theorem c3_dedup_idempotent (exchange : String) (trades : List TradeEvent)
    (cls : TradingHistoryClassAttrs) (storage : TradingHistoryStorage) :
    (∀ t, trades.getLast? = some t → some t.tid = cls.trade_ids_dict exchange →
      inner_store_trade exchange trades cls storage = (cls, storage)) ∧
    (∀ t, trades.getLast? = some t →
      (pyLower t.side = "buy" ∨ pyLower t.side = "sell") →
      ((∃ cp, (inner_store_trade exchange trades cls storage).2.contract_prices_dict exchange
          = storage.contract_prices_dict exchange ++ [cp])
        ↔ some t.tid ≠ cls.trade_ids_dict exchange)) ∧
    (inner_store_trade exchange trades
        (inner_store_trade exchange trades cls storage).1
        (inner_store_trade exchange trades cls storage).2
      = inner_store_trade exchange trades cls storage) := by
  refine ⟨?_, ?_, ?_⟩
  · intro t hlast heq
    exact inner_store_trade_eq_noop exchange trades t cls storage hlast heq.symm
  · intro t hlast hside
    by_cases h : some t.tid = cls.trade_ids_dict exchange
    · rw [inner_store_trade_eq_noop exchange trades t cls storage hlast h.symm]
      constructor
      · rintro ⟨cp, hcp⟩
        have hlen := congrArg List.length hcp
        simp at hlen
      · intro hne
        exact absurd h hne
    · constructor
      · intro _
        exact h
      · intro _
        unfold inner_store_trade
        rw [hlast]
        dsimp only
        rw [if_pos h]
        rcases hside with hb | hs
        · rw [if_pos hb]
          exact ⟨⟨"buy", t.price⟩, by simp [upd]⟩
        · rw [if_neg (by rw [hs]; decide), if_pos hs]
          exact ⟨⟨"sell", t.price⟩, by simp [upd]⟩
  · cases hlast : trades.getLast? with
    | none =>
      unfold inner_store_trade
      rw [hlast]
    | some t =>
      by_cases h : some t.tid = cls.trade_ids_dict exchange
      · rw [inner_store_trade_eq_noop exchange trades t cls storage hlast h.symm]
        exact inner_store_trade_eq_noop exchange trades t cls storage hlast h.symm
      · have hc := inner_store_trade_fst_cursor exchange trades t cls storage hlast h
        rw [inner_store_trade_eq_noop exchange trades t
          (inner_store_trade exchange trades cls storage).1
          (inner_store_trade exchange trades cls storage).2 hlast hc]

/-- C10: a trade snapshot whose latest item carries a new id, but a side
lowercasing to neither buy nor sell, only advances the trade cursor: no
ContractPrice is appended and both volumes are unchanged (the storage is
returned untouched). -/
theorem c10_unknown_side_consumes_id (exchange : String) (trades : List TradeEvent)
    (t : TradeEvent) (cls : TradingHistoryClassAttrs) (storage : TradingHistoryStorage)
    (hlast : trades.getLast? = some t)
    (hne : some t.tid ≠ cls.trade_ids_dict exchange)
    (hb : pyLower t.side ≠ "buy") (hs : pyLower t.side ≠ "sell") :
    inner_store_trade exchange trades cls storage
      = ({ cls with trade_ids_dict := upd cls.trade_ids_dict exchange (some t.tid) }, storage) := by
  unfold inner_store_trade
  rw [hlast]
  dsimp only
  rw [if_pos hne, if_neg hb, if_neg hs]

/-- C3 witness: processing a snapshot whose latest id "t1" equals the
stored cursor leaves the state unchanged. -/
theorem c3_dedup_idempotent_witness :
    inner_store_trade "bybit" [⟨"t1", "Buy", 100, 1⟩] clsT1 TradingHistoryStorage.init
      = (clsT1, TradingHistoryStorage.init) :=
  (c3_dedup_idempotent "bybit" [⟨"t1", "Buy", 100, 1⟩] clsT1 TradingHistoryStorage.init).1
    ⟨"t1", "Buy", 100, 1⟩ rfl (by decide)

/-- C10 witness: a new id "t9" with side "Mixed" advances the cursor and
leaves the storage untouched. -/
theorem c10_unknown_side_witness :
    inner_store_trade "bybit" [⟨"t9", "Mixed", 100, 1⟩] clsInit TradingHistoryStorage.init
      = ({ clsInit with trade_ids_dict := upd clsInit.trade_ids_dict "bybit" (some "t9") },
         TradingHistoryStorage.init) :=
  c10_unknown_side_consumes_id "bybit" [⟨"t9", "Mixed", 100, 1⟩] ⟨"t9", "Mixed", 100, 1⟩
    clsInit TradingHistoryStorage.init rfl (by decide) (by decide) (by decide)

theorem pyLower_Buy : pyLower "Buy" = "buy" := by decide

theorem pyLower_Sell : pyLower "Sell" = "sell" := by decide

theorem create_ohlcv_of_ne (storage : TradingHistoryStorage) (exchange : String)
    (h : storage.contract_prices_dict exchange ≠ []) :
    create_ohlcv storage exchange
      = Ohlcv.ofTrades (storage.contract_prices_dict exchange)
          (storage.buy_volume_dict exchange) (storage.sell_volume_dict exchange) := by
  unfold create_ohlcv
  exact if_pos (fun hl => h (List.length_eq_zero.mp hl))

theorem create_ohlcv_of_empty (storage : TradingHistoryStorage) (exchange : String)
    (h : storage.contract_prices_dict exchange = []) :
    create_ohlcv storage exchange = Ohlcv.empty := by
  unfold create_ohlcv
  rw [if_neg]
  intro hl
  exact hl (by simp [h])

/-- C2: in a window with at least one accumulated trade, open/close are
the first/last trade price in arrival order and high/low are the max/min
of all trade prices regardless of side (hence low ≤ high); in a window
with zero trades, all four price fields are absent and both volumes are
exactly 0. -/
theorem c2_ohlcv_window_shape (storage : TradingHistoryStorage) (exchange : String) :
    (storage.contract_prices_dict exchange ≠ [] →
      (∃ p0, (storage.contract_prices_dict exchange).head? = some p0 ∧
        (create_ohlcv storage exchange).open_ = some p0.price) ∧
      (∃ pn, (storage.contract_prices_dict exchange).getLast? = some pn ∧
        (create_ohlcv storage exchange).close = some pn.price) ∧
      (∃ hi, (create_ohlcv storage exchange).high = some hi ∧
        hi ∈ (storage.contract_prices_dict exchange).map (·.price) ∧
        ∀ p ∈ (storage.contract_prices_dict exchange).map (·.price), p ≤ hi) ∧
      (∃ lo, (create_ohlcv storage exchange).low = some lo ∧
        lo ∈ (storage.contract_prices_dict exchange).map (·.price) ∧
        ∀ p ∈ (storage.contract_prices_dict exchange).map (·.price), lo ≤ p) ∧
      (∀ hi lo, (create_ohlcv storage exchange).high = some hi →
        (create_ohlcv storage exchange).low = some lo → lo ≤ hi)) ∧
    (storage.contract_prices_dict exchange = [] →
      (create_ohlcv storage exchange).open_ = none ∧
      (create_ohlcv storage exchange).high = none ∧
      (create_ohlcv storage exchange).low = none ∧
      (create_ohlcv storage exchange).close = none ∧
      (create_ohlcv storage exchange).buy_volume = 0 ∧
      (create_ohlcv storage exchange).sell_volume = 0) := by
  constructor
  · intro h
    rw [create_ohlcv_of_ne storage exchange h]
    have hmapne : (storage.contract_prices_dict exchange).map (·.price) ≠ [] := by
      simpa using h
    obtain ⟨hi, hhi⟩ := pymax_isSome _ hmapne
    obtain ⟨lo, hlo⟩ := pymin_isSome _ hmapne
    obtain ⟨hhimem, hhibd⟩ := pymax_mem_and_bound _ hi hhi
    obtain ⟨hlomem, hlobd⟩ := pymin_mem_and_bound _ lo hlo
    refine ⟨?_, ?_, ⟨hi, hhi, hhimem, hhibd⟩, ⟨lo, hlo, hlomem, hlobd⟩, ?_⟩
    · cases hcp : storage.contract_prices_dict exchange with
      | nil => exact absurd hcp h
      | cons c rest =>
        refine ⟨c, rfl, ?_⟩
        simp [Ohlcv.ofTrades, hcp]
    · obtain ⟨pn, hpn⟩ := List.getLast?_isSome.mpr (by simpa using h) |> Option.isSome_iff_exists.mp
      refine ⟨pn, hpn, ?_⟩
      simp [Ohlcv.ofTrades, List.getLast?_map, hpn]
    · intro hi' lo' hhi' hlo'
      rw [show (Ohlcv.ofTrades (storage.contract_prices_dict exchange)
          (storage.buy_volume_dict exchange) (storage.sell_volume_dict exchange)).high
            = pymax ((storage.contract_prices_dict exchange).map (·.price)) from rfl, hhi] at hhi'
      rw [show (Ohlcv.ofTrades (storage.contract_prices_dict exchange)
          (storage.buy_volume_dict exchange) (storage.sell_volume_dict exchange)).low
            = pymin ((storage.contract_prices_dict exchange).map (·.price)) from rfl, hlo] at hlo'
      cases hhi'
      cases hlo'
      exact hlobd hi hhimem
  · intro h
    rw [create_ohlcv_of_empty storage exchange h]
    exact ⟨rfl, rfl, rfl, rfl, rfl, rfl⟩

/-- C2 witness: the zero-trade window at the freshly initialised storage
has absent price fields and zero volumes. -/
theorem c2_ohlcv_window_shape_witness :
    (create_ohlcv TradingHistoryStorage.init "bybit").open_ = none ∧
    (create_ohlcv TradingHistoryStorage.init "bybit").high = none ∧
    (create_ohlcv TradingHistoryStorage.init "bybit").low = none ∧
    (create_ohlcv TradingHistoryStorage.init "bybit").close = none ∧
    (create_ohlcv TradingHistoryStorage.init "bybit").buy_volume = 0 ∧
    (create_ohlcv TradingHistoryStorage.init "bybit").sell_volume = 0 :=
  (c2_ohlcv_window_shape TradingHistoryStorage.init "bybit").2 rfl

/-- C6: side-average guards.  In a window with at least one trade,
buy_price_avg is the sum of buy-side prices divided by buy_volume when
buy_volume > 0 and absent when buy_volume = 0 (the guard, not a crash),
symmetrically for sell; and the window fed exactly
(buy,100,1),(sell,101,2),(buy,102,3) closes to
open 100, high 102, low 100, close 102, volumes 4/2,
both averages 101/2 = 50.5. -/
theorem c6_side_averages (storage : TradingHistoryStorage) (exchange : String) :
    (storage.contract_prices_dict exchange ≠ [] →
      (0 < storage.buy_volume_dict exchange →
        (create_ohlcv storage exchange).buy_price_avg
          = some ((((storage.contract_prices_dict exchange).filter
              (fun cp => cp.side = "buy")).map (·.price)).sum
                / storage.buy_volume_dict exchange)) ∧
      (storage.buy_volume_dict exchange = 0 →
        (create_ohlcv storage exchange).buy_price_avg = none) ∧
      (0 < storage.sell_volume_dict exchange →
        (create_ohlcv storage exchange).sell_price_avg
          = some ((((storage.contract_prices_dict exchange).filter
              (fun cp => cp.side = "sell")).map (·.price)).sum
                / storage.sell_volume_dict exchange)) ∧
      (storage.sell_volume_dict exchange = 0 →
        (create_ohlcv storage exchange).sell_price_avg = none)) ∧
    create_ohlcv c6S3.2 "bybit"
      = ⟨some 100, some 102, some 100, some 102, 4, 2, some (101/2), some (101/2)⟩ := by
  constructor
  · intro h
    rw [create_ohlcv_of_ne storage exchange h]
    refine ⟨?_, ?_, ?_, ?_⟩
    · intro hpos
      simp [Ohlcv.ofTrades, ne_of_gt hpos]
    · intro hz
      simp [Ohlcv.ofTrades, hz]
    · intro hpos
      simp [Ohlcv.ofTrades, ne_of_gt hpos]
    · intro hz
      simp [Ohlcv.ofTrades, hz]
  · have hcp : c6S3.2.contract_prices_dict "bybit" = [⟨"buy", 100⟩, ⟨"sell", 101⟩, ⟨"buy", 102⟩] := by
      simp [c6S3, c6S2, c6S1, inner_store_trade, clsInit, TradingHistoryStorage.init, upd,
        pyLower_Buy, pyLower_Sell]
    have hbv : c6S3.2.buy_volume_dict "bybit" = 4 := by
      simp [c6S3, c6S2, c6S1, inner_store_trade, clsInit, TradingHistoryStorage.init, upd,
        pyLower_Buy, pyLower_Sell]
      try norm_num
    have hsv : c6S3.2.sell_volume_dict "bybit" = 2 := by
      simp [c6S3, c6S2, c6S1, inner_store_trade, clsInit, TradingHistoryStorage.init, upd,
        pyLower_Buy, pyLower_Sell]
      try norm_num
    rw [create_ohlcv_of_ne c6S3.2 "bybit" (by rw [hcp]; simp), hcp, hbv, hsv]
    simp [Ohlcv.ofTrades, pymax, pymin]
    try norm_num

/-- C6 witness: in the three-trade example window, buy_volume is 4 > 0 and
buy_price_avg is the guarded quotient. -/
theorem c6_side_averages_witness :
    (create_ohlcv c6S3.2 "bybit").buy_price_avg
      = some ((((c6S3.2.contract_prices_dict "bybit").filter
          (fun cp => cp.side = "buy")).map (·.price)).sum / c6S3.2.buy_volume_dict "bybit") := by
  refine ((c6_side_averages c6S3.2 "bybit").1 ?_).1 ?_
  · simp [c6S3, c6S2, c6S1, inner_store_trade, clsInit, TradingHistoryStorage.init, upd,
      pyLower_Buy, pyLower_Sell]
  · simp [c6S3, c6S2, c6S1, inner_store_trade, clsInit, TradingHistoryStorage.init, upd,
      pyLower_Buy, pyLower_Sell]
    try norm_num

theorem append_tickers_not_mem (exchanges : List String) (ticker_dict : String → Ticker)
    (df : String → List Ticker) (e : String) (he : e ∉ exchanges) :
    append_tickers exchanges ticker_dict df e = df e := by
  revert he
  induction exchanges generalizing df with
  | nil =>
    intro he
    rfl
  | cons x xs ih =>
    intro he
    have hex : e ≠ x := fun h => he (h ▸ List.mem_cons_self x xs)
    have hxs : e ∉ xs := fun h => he (List.mem_cons_of_mem x h)
    show append_tickers xs ticker_dict (upd df x (df x ++ [ticker_dict x])) e = df e
    rw [ih _ hxs, upd_other _ _ _ _ hex]

theorem append_tickers_mem (exchanges : List String) (ticker_dict : String → Ticker)
    (df : String → List Ticker) (e : String) (hnd : exchanges.Nodup) (he : e ∈ exchanges) :
    append_tickers exchanges ticker_dict df e = df e ++ [ticker_dict e] := by
  revert hnd he
  induction exchanges generalizing df with
  | nil =>
    intro _ he
    exact absurd he (List.not_mem_nil e)
  | cons x xs ih =>
    intro hnd he
    rcases List.nodup_cons.mp hnd with ⟨hx, hxs⟩
    show append_tickers xs ticker_dict (upd df x (df x ++ [ticker_dict x])) e
      = df e ++ [ticker_dict e]
    rcases List.mem_cons.mp he with rfl | hexs
    · rw [append_tickers_not_mem xs ticker_dict _ e hx, upd_same]
    · have hex : e ≠ x := fun h => hx (h ▸ hexs)
      rw [ih _ hxs hexs, upd_other _ _ _ _ hex]

/-- C5: day rollover is atomic across exchanges.  When the incoming
tick's date is later than the stored day, `_update_df` first records one
sink upload per exchange carrying that exchange's full old-day buffer,
then clears every buffer and advances the day, and only then appends the
new tick (each buffer ends as exactly the new tick); when the tick's
date is not later, buffers are appended to with no upload and the day is
unchanged. -/
theorem c5_day_rollover (exchanges : List String) (now : ℕ)
    (ticker_dict : String → Ticker) (s : ApiBufferState) (hnd : exchanges.Nodup) :
    (s.today < now →
      (update_df exchanges now ticker_dict s).gcs
        = s.gcs ++ exchanges.map (fun e => ⟨e, s.df_dict e, s.today⟩) ∧
      (∀ e ∈ exchanges, (update_df exchanges now ticker_dict s).df_dict e = [ticker_dict e]) ∧
      (update_df exchanges now ticker_dict s).today = now) ∧
    (¬ s.today < now →
      (update_df exchanges now ticker_dict s).gcs = s.gcs ∧
      (∀ e ∈ exchanges,
        (update_df exchanges now ticker_dict s).df_dict e = s.df_dict e ++ [ticker_dict e]) ∧
      (update_df exchanges now ticker_dict s).today = s.today) := by
  constructor
  · intro h
    unfold update_df
    rw [if_pos h]
    refine ⟨rfl, ?_, rfl⟩
    intro e he
    show append_tickers exchanges ticker_dict (save_ticker exchanges s).df_dict e = _
    rw [append_tickers_mem exchanges ticker_dict _ e hnd he]
    rfl
  · intro h
    unfold update_df
    rw [if_neg h]
    refine ⟨rfl, ?_, rfl⟩
    intro e he
    exact append_tickers_mem exchanges ticker_dict _ e hnd he

/-- C5 witness: a day-1 tick arriving on the day-0 buffer flushes the
day-0 buffer once, clears it, advances the day, then appends the tick. -/
theorem c5_day_rollover_witness :
    (update_df ["bybit"] 1 (fun _ => tick1) bufS0).gcs = [⟨"bybit", [tick0], 0⟩] ∧
    (update_df ["bybit"] 1 (fun _ => tick1) bufS0).df_dict "bybit" = [tick1] ∧
    (update_df ["bybit"] 1 (fun _ => tick1) bufS0).today = 1 := by
  have h := (c5_day_rollover ["bybit"] 1 (fun _ => tick1) bufS0 (by simp)).1 (by decide)
  refine ⟨?_, h.2.1 "bybit" (by simp), h.2.2⟩
  rw [h.1]
  rfl

theorem insertAsc_perm {α : Type} (le : α → α → Bool) (x : α) (l : List α) :
    (insertAsc le x l).Perm (x :: l) := by
  induction l with
  | nil => exact List.Perm.refl _
  | cons y ys ih =>
    rw [insertAsc]
    by_cases h : le x y = true
    · rw [if_pos h]
    · rw [if_neg h]
      exact (ih.cons y).trans (List.Perm.swap x y ys)

theorem sortWith_perm {α : Type} (le : α → α → Bool) (l : List α) :
    (sortWith le l).Perm l := by
  induction l with
  | nil => exact List.Perm.refl _
  | cons x xs ih => exact (insertAsc_perm le x (sortWith le xs)).trans (ih.cons x)

theorem pairwise_insertAsc {α : Type} (le : α → α → Bool)
    (htot : ∀ a b, le a b = true ∨ le b a = true)
    (htrans : ∀ a b c, le a b = true → le b c = true → le a c = true)
    (x : α) (l : List α) (h : l.Pairwise (fun a b => le a b = true)) :
    (insertAsc le x l).Pairwise (fun a b => le a b = true) := by
  induction l with
  | nil => simp [insertAsc]
  | cons y ys ih =>
    rcases List.pairwise_cons.mp h with ⟨hy, hys⟩
    rw [insertAsc]
    by_cases hxy : le x y = true
    · rw [if_pos hxy]
      refine List.pairwise_cons.mpr ⟨?_, h⟩
      intro b hb
      rcases List.mem_cons.mp hb with rfl | hb
      · exact hxy
      · exact htrans x y b hxy (hy b hb)
    · rw [if_neg hxy]
      refine List.pairwise_cons.mpr ⟨?_, ih hys⟩
      intro b hb
      rcases List.mem_cons.mp ((insertAsc_perm le x ys).mem_iff.mp hb) with rfl | hb2
      · rcases htot b y with h1 | h2
        · exact absurd h1 hxy
        · exact h2
      · exact hy b hb2

theorem pairwise_sortWith {α : Type} (le : α → α → Bool)
    (htot : ∀ a b, le a b = true ∨ le b a = true)
    (htrans : ∀ a b c, le a b = true → le b c = true → le a c = true)
    (l : List α) :
    (sortWith le l).Pairwise (fun a b => le a b = true) := by
  induction l with
  | nil => exact List.Pairwise.nil
  | cons x xs ih => exact pairwise_insertAsc le htot htrans x (sortWith le xs) ih

theorem dictGet_extract (d : RawDict) (w : List String) (k : String) :
    dictGet (extract_dict d w) k = if k ∈ w then dictGet d k else none := by
  induction d with
  | nil => simp [dictGet, extract_dict]
  | cons kv rest ih =>
    by_cases hkw : kv.1 ∈ w
    · have hfk : extract_dict (kv :: rest) w = kv :: extract_dict rest w := by
        simp [extract_dict, List.filter_cons, hkw]
      rw [hfk]
      by_cases hk : kv.1 = k
      · subst hk
        have hkvw : kv.1 ∈ w := hkw
        rw [if_pos hkvw]
        simp [dictGet, List.find?_cons]
      · have : dictGet (kv :: extract_dict rest w) k = dictGet (extract_dict rest w) k := by
          simp [dictGet, List.find?_cons, hk]
        rw [this, ih]
        by_cases hkmem : k ∈ w
        · rw [if_pos hkmem, if_pos hkmem]
          simp [dictGet, List.find?_cons, hk]
        · rw [if_neg hkmem, if_neg hkmem]
    · have hfk : extract_dict (kv :: rest) w = extract_dict rest w := by
        simp [extract_dict, List.filter_cons, hkw]
      rw [hfk, ih]
      by_cases hkmem : k ∈ w
      · have hk : kv.1 ≠ k := fun h => hkw (h ▸ hkmem)
        rw [if_pos hkmem, if_pos hkmem]
        simp [dictGet, List.find?_cons, hk]
      · rw [if_neg hkmem, if_neg hkmem]

theorem collect_sides_mem (l : List RawDict) (acc : List RawDict × List RawDict)
    (b s : List RawDict) (h : collect_sides acc l = some (b, s)) :
    (∀ d' ∈ b, d' ∈ acc.1 ∨ ∃ d ∈ l, d' = extract_dict d ["size", "price"]) ∧
    (∀ d' ∈ s, d' ∈ acc.2 ∨ ∃ d ∈ l, d' = extract_dict d ["size", "price"]) := by
  induction l generalizing acc with
  | nil =>
    rw [collect_sides] at h
    cases h
    exact ⟨fun d' hd' => Or.inl hd', fun d' hd' => Or.inl hd'⟩
  | cons d ds ih =>
    rw [collect_sides] at h
    cases hps : parse_step acc d with
    | none => rw [hps] at h; cases h
    | some acc2 =>
      rw [hps] at h
      have hih := ih acc2 h
      unfold parse_step at hps
      cases hget : dictGet d "side" with
      | none => rw [hget] at hps; cases hps
      | some v =>
        cases v with
        | jnum q => rw [hget] at hps; cases hps
        | jstr sideStr =>
          rw [hget] at hps
          dsimp only at hps
          by_cases hbuy : pyCapitalize sideStr = "Buy"
          · rw [if_pos hbuy] at hps
            cases hps
            refine ⟨?_, ?_⟩
            · intro d' hd'
              rcases hih.1 d' hd' with hacc | ⟨d0, hd0, hd0e⟩
              · rcases List.mem_append.mp hacc with h1 | h1
                · exact Or.inl h1
                · rcases List.mem_singleton.mp h1 with rfl
                  exact Or.inr ⟨d, List.mem_cons_self d ds, rfl⟩
              · exact Or.inr ⟨d0, List.mem_cons_of_mem d hd0, hd0e⟩
            · intro d' hd'
              rcases hih.2 d' hd' with hacc | ⟨d0, hd0, hd0e⟩
              · exact Or.inl hacc
              · exact Or.inr ⟨d0, List.mem_cons_of_mem d hd0, hd0e⟩
          · rw [if_neg hbuy] at hps
            by_cases hsell : pyCapitalize sideStr = "Sell"
            · rw [if_pos hsell] at hps
              cases hps
              refine ⟨?_, ?_⟩
              · intro d' hd'
                rcases hih.1 d' hd' with hacc | ⟨d0, hd0, hd0e⟩
                · exact Or.inl hacc
                · exact Or.inr ⟨d0, List.mem_cons_of_mem d hd0, hd0e⟩
              · intro d' hd'
                rcases hih.2 d' hd' with hacc | ⟨d0, hd0, hd0e⟩
                · rcases List.mem_append.mp hacc with h1 | h1
                  · exact Or.inl h1
                  · rcases List.mem_singleton.mp h1 with rfl
                    exact Or.inr ⟨d, List.mem_cons_self d ds, rfl⟩
                · exact Or.inr ⟨d0, List.mem_cons_of_mem d hd0, hd0e⟩
            · rw [if_neg hsell] at hps
              cases hps

theorem collect_sides_lengths (l : List RawDict) (acc : List RawDict × List RawDict)
    (b s : List RawDict) (h : collect_sides acc l = some (b, s)) :
    b.length = acc.1.length + l.countP (fun d => decide (entrySide d = some "Buy")) ∧
    s.length = acc.2.length + l.countP (fun d => decide (entrySide d = some "Sell")) := by
  induction l generalizing acc with
  | nil =>
    rw [collect_sides] at h
    cases h
    simp
  | cons d ds ih =>
    rw [collect_sides] at h
    cases hps : parse_step acc d with
    | none => rw [hps] at h; cases h
    | some acc2 =>
      rw [hps] at h
      have hih := ih acc2 h
      unfold parse_step at hps
      cases hget : dictGet d "side" with
      | none => rw [hget] at hps; cases hps
      | some v =>
        cases v with
        | jnum q => rw [hget] at hps; cases hps
        | jstr sideStr =>
          rw [hget] at hps
          dsimp only at hps
          have hes : entrySide d = some (pyCapitalize sideStr) := by
            unfold entrySide
            rw [hget]
          by_cases hbuy : pyCapitalize sideStr = "Buy"
          · rw [if_pos hbuy] at hps
            cases hps
            rcases hih with ⟨h1, h2⟩
            constructor
            · rw [h1, List.countP_cons]
              simp [hes, hbuy]
              omega
            · rw [h2, List.countP_cons]
              simp [hes, hbuy]
          · rw [if_neg hbuy] at hps
            by_cases hsell : pyCapitalize sideStr = "Sell"
            · rw [if_pos hsell] at hps
              cases hps
              rcases hih with ⟨h1, h2⟩
              constructor
              · rw [h1, List.countP_cons]
                simp [hes, hsell]
              · rw [h2, List.countP_cons]
                simp [hes, hsell]
                omega
            · rw [if_neg hsell] at hps
              cases hps

theorem collect_sides_isSome (l : List RawDict) (acc : List RawDict × List RawDict)
    (hval : ∀ d ∈ l, ∃ s', dictGet d "side" = some (JVal.jstr s') ∧
      (pyCapitalize s' = "Buy" ∨ pyCapitalize s' = "Sell")) :
    ∃ r, collect_sides acc l = some r := by
  induction l generalizing acc with
  | nil => exact ⟨acc, rfl⟩
  | cons d ds ih =>
    obtain ⟨s', hget, hcap⟩ := hval d (List.mem_cons_self d ds)
    have hval' : ∀ d ∈ ds, ∃ s', dictGet d "side" = some (JVal.jstr s') ∧
        (pyCapitalize s' = "Buy" ∨ pyCapitalize s' = "Sell") :=
      fun d hd => hval d (List.mem_cons_of_mem _ hd)
    rw [collect_sides]
    have hps : ∃ acc2, parse_step acc d = some acc2 := by
      unfold parse_step
      rw [hget]
      dsimp only
      by_cases hbb : pyCapitalize s' = "Buy"
      · rw [if_pos hbb]
        exact ⟨_, rfl⟩
      · rcases hcap with hb | hs
        · exact absurd hb hbb
        · rw [if_neg hbb, if_pos hs]
          exact ⟨_, rfl⟩
    obtain ⟨acc2, hacc2⟩ := hps
    rw [hacc2]
    exact ih acc2 hval'

/-- C7: parsing a raw snapshot whose entries carry a Buy/Sell side and
price/size keys yields Buy and Sell sequences whose entries hold exactly
the keys price and size (extra fields stripped), with Sell ascending and
Buy descending by price; on the spec's example book the bids come out
101, 100, 99 and the asks 104, 105. -/
theorem c7_parse_orderbook (ob : List RawDict)
    (hside : ∀ d ∈ ob, ∃ s', dictGet d "side" = some (JVal.jstr s') ∧
      (pyCapitalize s' = "Buy" ∨ pyCapitalize s' = "Sell"))
    (hkeys : ∀ d ∈ ob, (∃ v, dictGet d "price" = some v) ∧ (∃ v, dictGet d "size" = some v)) :
    (∃ buys sells, parse_orderbook ob = some (buys, sells) ∧
      sells.Pairwise (fun a b => priceKey a ≤ priceKey b) ∧
      buys.Pairwise (fun a b => priceKey b ≤ priceKey a) ∧
      (∀ d' ∈ buys ++ sells, ∀ k, (∃ v, dictGet d' k = some v) ↔ (k = "size" ∨ k = "price"))) ∧
    parse_orderbook exRawBook = some (exBuys, exSells) := by
  constructor
  · obtain ⟨⟨b0, s0⟩, hr⟩ := collect_sides_isSome ob ([], []) hside
    have hmem := collect_sides_mem ob ([], []) b0 s0 hr
    refine ⟨sortWith descByPrice b0, sortWith ascByPrice s0, ?_, ?_, ?_, ?_⟩
    · unfold parse_orderbook
      rw [hr]
    · have hp := pairwise_sortWith ascByPrice
        (fun a b => by
          unfold ascByPrice
          rcases le_total (priceKey a) (priceKey b) with h | h
          · exact Or.inl (decide_eq_true h)
          · exact Or.inr (decide_eq_true h))
        (fun a b c h1 h2 => by
          unfold ascByPrice at h1 h2 ⊢
          exact decide_eq_true (le_trans (of_decide_eq_true h1) (of_decide_eq_true h2)))
        s0
      exact hp.imp (fun h => of_decide_eq_true h)
    · have hp := pairwise_sortWith descByPrice
        (fun a b => by
          unfold descByPrice
          rcases le_total (priceKey b) (priceKey a) with h | h
          · exact Or.inl (decide_eq_true h)
          · exact Or.inr (decide_eq_true h))
        (fun a b c h1 h2 => by
          unfold descByPrice at h1 h2 ⊢
          exact decide_eq_true (le_trans (of_decide_eq_true h2) (of_decide_eq_true h1)))
        b0
      exact hp.imp (fun h => of_decide_eq_true h)
    · intro d' hd' k
      have hd'ex : ∃ d ∈ ob, d' = extract_dict d ["size", "price"] := by
        rcases List.mem_append.mp hd' with hb | hs
        · rcases (hmem.1 d' ((sortWith_perm descByPrice b0).mem_iff.mp hb)) with h0 | h0
          · exact absurd h0 (List.not_mem_nil d')
          · exact h0
        · rcases (hmem.2 d' ((sortWith_perm ascByPrice s0).mem_iff.mp hs)) with h0 | h0
          · exact absurd h0 (List.not_mem_nil d')
          · exact h0
      obtain ⟨d, hdob, rfl⟩ := hd'ex
      rw [dictGet_extract]
      constructor
      · intro hv
        by_cases hkw : k ∈ ["size", "price"]
        · simpa using hkw
        · rw [if_neg hkw] at hv
          rcases hv with ⟨v, hv⟩
          cases hv
      · intro hk
        have hkw : k ∈ ["size", "price"] := by
          rcases hk with rfl | rfl <;> simp
        rw [if_pos hkw]
        rcases hk with rfl | rfl
        · exact (hkeys d hdob).2
        · exact (hkeys d hdob).1
  · decide

/-- C7 witness: on the spec's example book the hypotheses hold and the
parse yields bids 101, 100, 99 and asks 104, 105. -/
theorem c7_parse_orderbook_witness :
    parse_orderbook exRawBook = some (exBuys, exSells) :=
  (c7_parse_orderbook exRawBook
    (by
      intro d hd
      simp only [exRawBook, List.mem_cons, List.not_mem_nil, or_false] at hd
      rcases hd with rfl | rfl | rfl | rfl | rfl
      · exact ⟨"Buy", by decide, Or.inl (by decide)⟩
      · exact ⟨"Buy", by decide, Or.inl (by decide)⟩
      · exact ⟨"Buy", by decide, Or.inl (by decide)⟩
      · exact ⟨"Sell", by decide, Or.inr (by decide)⟩
      · exact ⟨"Sell", by decide, Or.inr (by decide)⟩)
    (by
      intro d hd
      simp only [exRawBook, List.mem_cons, List.not_mem_nil, or_false] at hd
      rcases hd with rfl | rfl | rfl | rfl | rfl
      · exact ⟨⟨JVal.jnum 100, by decide⟩, ⟨JVal.jnum 1, by decide⟩⟩
      · exact ⟨⟨JVal.jnum 99, by decide⟩, ⟨JVal.jnum 2, by decide⟩⟩
      · exact ⟨⟨JVal.jnum 101, by decide⟩, ⟨JVal.jnum 3, by decide⟩⟩
      · exact ⟨⟨JVal.jnum 105, by decide⟩, ⟨JVal.jnum 1, by decide⟩⟩
      · exact ⟨⟨JVal.jnum 104, by decide⟩, ⟨JVal.jnum 2, by decide⟩⟩)).2

/-- C8 (counterexample): the Ticker built from a snapshot with three bid
levels keeps all three — not exactly the best two as claimed. -/
theorem c8_best_two_counterexample :
    exTicker.orderbook.1.length = 3 ∧ ¬ exTicker.orderbook.1.length = 2 := by
  decide

/-- C8 (amended): the Ticker retains the full parsed depth.  `Ticker`
stores the parsed order book unchanged, and the parsed Buy/Sell sides
contain one entry per raw entry of that side — all levels, not only the
best two. -/
theorem c8_ticker_full_depth (ob : List RawDict) (buys sells : List RawDict)
    (ts : ℕ) (ohlcv : Ohlcv) (lq : LiquidationQty) (oi : OIohlc)
    (h : parse_orderbook ob = some (buys, sells)) :
    (Ticker.make ts ohlcv lq oi (buys, sells)).orderbook = (buys, sells) ∧
    buys.length = ob.countP (fun d => decide (entrySide d = some "Buy")) ∧
    sells.length = ob.countP (fun d => decide (entrySide d = some "Sell")) := by
  unfold parse_orderbook at h
  cases hr : collect_sides ([], []) ob with
  | none =>
    rw [hr] at h
    cases h
  | some r =>
    obtain ⟨b0, s0⟩ := r
    rw [hr] at h
    have hpair := Option.some.inj h
    rw [Prod.mk.injEq] at hpair
    obtain ⟨h1, h2⟩ := hpair
    have hlen := collect_sides_lengths ob ([], []) b0 s0 hr
    refine ⟨rfl, ?_, ?_⟩
    · rw [← h1, (sortWith_perm descByPrice b0).length_eq]
      simpa using hlen.1
    · rw [← h2, (sortWith_perm ascByPrice s0).length_eq]
      simpa using hlen.2

/-- C8 witness: on the example book, the Ticker's stored book is the full
three-level bid / two-level ask parse. -/
theorem c8_ticker_full_depth_witness :
    (Ticker.make 0 Ohlcv.empty ⟨0, 0⟩ OIohlc.empty (exBuys, exSells)).orderbook = (exBuys, exSells) ∧
    exBuys.length = exRawBook.countP (fun d => decide (entrySide d = some "Buy")) ∧
    exSells.length = exRawBook.countP (fun d => decide (entrySide d = some "Sell")) :=
  c8_ticker_full_depth exRawBook exBuys exSells 0 Ohlcv.empty ⟨0, 0⟩ OIohlc.empty (by decide)

/-- C9 (code evaluated at the failing input): for an exchange whose store
exposes `trades` but not `trade` (the FTX case the handler was written
for), the first loop iteration ends in save_ticker + sys.exit(1) rather
than skipping the unsupported streams; the loop never reaches the
continue outcome for such a store. -/
theorem c9_unsupported_stream_fatal :
    store_body "ftx" ftxStore clsInit TradingHistoryStorage.init = BodyOutcome.fatalExit ∧
    (∀ cls storage cls2 storage2,
      store_body "ftx" ftxStore cls storage ≠ BodyOutcome.ok cls2 storage2) := by
  constructor
  · rfl
  · intro cls storage cls2 storage2 h
    simp [store_body, ftxStore] at h
